import Mathlib

/-!
Verification of the wire/storage transaction model of `storage/src/objects/transaction.rs`:
the `SerialTransaction` struct, its canonical byte layout (`ToBytes::write_le`), its size
estimator, the generic codec helpers (`serialize_digest`, `serialize_bytes`,
`serialize_many_digests`, `deserialize_bytes`, `deserialize_many_bytes`) and the
`VMTransaction` converter (`deserialize` / `serialize`) implemented for the domain
transaction type `Transaction<T : Testnet1Components>`.

The cryptographic domain types (serial numbers, commitments, proofs, signatures, the
ledger digest, ...) are external collaborators: the converter only uses their canonical
byte readers and writers (`ToBytes` / `FromBytes`, and `CanonicalSerialize` /
`CanonicalDeserialize` for serial numbers).  We embed them as a bundle of abstract types,
each paired with its encoder and decoder (a `Codec`), exactly the shape the Rust generics
consume.  Bytes are modelled as `List Nat`; fallible operations return `Except IoError`.
-/

/-- Error payloads of `std::io::Error` / `anyhow::Error` are opaque to this module;
we only need to distinguish and propagate them, so an abstract numeric tag suffices. -/
abbrev IoError := Nat

/-- `pub type TransactionId = [u8; 32];` — a fixed 32-byte array, modelled as a byte list. -/
abbrev TransactionId := List Nat

/-- `crate::Digest` — a small-buffer-optimized owned byte sequence (newtype over a byte
buffer); two digests are equal iff their byte contents are equal. -/
structure Digest where
  bytes : List Nat
deriving DecidableEq, Repr

/-- Modelled from the spec: `snarkvm_dpc::Network` is a small closed enumeration
identifying the target ledger; its `write_le` writes its one-byte tag.  We keep the
numeric tag. -/
abbrev Network := Nat

/-- Modelled from the spec: `Network::write_le` — the network tag's own canonical
encoding, a single byte. -/
def networkBytes (n : Network) : List Nat := [n % 256]

/-- `AleoAmount` — a signed 64-bit value balance. -/
abbrev AleoAmount := Int

/-- Modelled from the spec: `AleoAmount::write_le` — fixed-width signed integer
encoding: the 8 little-endian bytes of the `i64` two's-complement representation. -/
def intToLeBytes (w : Nat) (v : Int) : List Nat :=
  (List.range w).map (fun i => ((v % (2 ^ (8 * w))).toNat / 2 ^ (8 * i)) % 256)

/-- The wire transaction model `SerialTransaction` (field-for-field from the source). -/
structure SerialTransaction where
  id : TransactionId
  /-- The network this transaction is included in -/
  network : Network
  /-- The root of the ledger commitment Merkle tree -/
  ledger_digest : Digest
  /-- The serial numbers of the records being spent -/
  old_serial_numbers : List Digest
  new_commitments : List Digest
  /-- The commitment to the old record death and new record birth programs -/
  program_commitment : Digest
  /-- The root of the local data merkle tree -/
  local_data_root : Digest
  /-- Difference between input and output record balances (negative only for coinbase) -/
  value_balance : AleoAmount
  /-- Randomized signatures allowing authorized delegation of transaction generation -/
  signatures : List Digest
  /-- Encrypted record and selector bits of the new records generated by the transaction -/
  new_records : List (List Nat)
  /-- Zero-knowledge proof attesting to the validity of the transaction -/
  transaction_proof : List Nat
  /-- Public data associated with the transaction, unique among all transactions -/
  memorandum : Digest
  /-- The ID of the inner SNARK being used -/
  inner_circuit_id : Digest
deriving DecidableEq, Repr

/-- `SerialTransaction::size`.  The three `size_of` values are compile-time layout
constants of the Rust program (`size_of::<SerialTransaction>()`, `size_of::<Digest>()`,
`size_of::<SerialRecord>()`); we take them as parameters, so every theorem below holds
for the actual layout whatever its concrete numbers are. -/
def SerialTransaction.size (szSerialTransaction szDigest szSerialRecord : Nat)
    (t : SerialTransaction) : Nat :=
  szSerialTransaction
    + szDigest * (t.old_serial_numbers.length + t.new_commitments.length + t.signatures.length)
    + szSerialRecord * t.new_records.length
    + (t.new_records.map (fun x => x.length)).sum
    + t.transaction_proof.length

/-- `Write::write_all` on a growable byte buffer: appends the bytes (infallible for an
in-memory buffer). -/
def writeAll (w : List Nat) (bs : List Nat) : List Nat := w ++ bs

/-- Modelled from the spec: `ToBytes::write_le` for `Vec<u8>` (external
`snarkvm_utilities`), used for each encrypted record payload — writes the payload's
bytes. -/
def vecU8WriteLe (r : List Nat) : List Nat := r

/-- `ToBytes for SerialTransaction::write_le`: the canonical byte encoding, written
field by field into the writer `w` exactly as the source does. -/
def SerialTransaction.write_le (t : SerialTransaction) (w : List Nat) : List Nat :=
  let w := t.old_serial_numbers.foldl (fun acc serial_number => writeAll acc serial_number.bytes) w
  let w := t.new_commitments.foldl (fun acc commitment => writeAll acc commitment.bytes) w
  let w := writeAll w t.memorandum.bytes
  let w := writeAll w t.ledger_digest.bytes
  let w := writeAll w t.inner_circuit_id.bytes
  let w := writeAll w t.transaction_proof
  let w := writeAll w t.program_commitment.bytes
  let w := writeAll w t.local_data_root.bytes
  let w := writeAll w (intToLeBytes 8 t.value_balance)
  let w := writeAll w (networkBytes t.network)
  let w := t.signatures.foldl (fun acc signature => writeAll acc signature.bytes) w
  let w := t.new_records.foldl (fun acc record => writeAll acc (vecU8WriteLe record)) w
  w

/-- A domain value's canonical byte conversion capabilities: `enc` is its
`ToBytes::write_le` into a fresh buffer (or `CanonicalSerialize::serialize` where so
noted), `dec` its `FromBytes::read_le` (or `CanonicalDeserialize::deserialize`). -/
structure Codec (α : Type) where
  enc : α → Except IoError (List Nat)
  dec : List Nat → Except IoError α

/-- A codec is lawful when every value encodes successfully and decoding the encoding
returns the value — the contract a canonical serializer provides on valid values. -/
def Codec.lawful {α : Type} (c : Codec α) : Prop :=
  ∀ x, ∃ bs, c.enc x = Except.ok bs ∧ c.dec bs = Except.ok x

/-- Sequencing of fallible element conversions: the shared shape of the source's
`for`-loops with `?` and its `iter().map(..).collect::<Result<_>>()` calls — first
failure aborts, otherwise results are collected in order. -/
def mapME {α β : Type} (f : α → Except IoError β) : List α → Except IoError (List β)
  | [] => Except.ok []
  | x :: xs =>
      Except.bind (f x) (fun y =>
        Except.bind (mapME f xs) (fun ys =>
          Except.ok (y :: ys)))

/-- `serialize_digest`: writes a domain value with its canonical writer into a fresh
small-buffer container and wraps it as a `Digest`. -/
def serialize_digest {α : Type} (enc : α → Except IoError (List Nat)) (b : α) :
    Except IoError Digest :=
  Except.bind (enc b) (fun out => Except.ok (Digest.mk out))

/-- `serialize_bytes`: writes a domain value with its canonical writer into a fresh
growable byte buffer. -/
def serialize_bytes {α : Type} (enc : α → Except IoError (List Nat)) (b : α) :
    Except IoError (List Nat) :=
  Except.bind (enc b) (fun out => Except.ok out)

/-- `serialize_many_digests`: encodes each element in order, pre-sized, first failure
aborts. -/
def serialize_many_digests {α : Type} (enc : α → Except IoError (List Nat))
    (items : List α) : Except IoError (List Digest) :=
  mapME (serialize_digest enc) items

/-- `deserialize_bytes`: invokes the target type's canonical byte reader over the given
slice (`asRef` below plays the role of the `AsRef<[u8]>` bound at each call site). -/
def deserialize_bytes {α : Type} (dec : List Nat → Except IoError α) (bytes : List Nat) :
    Except IoError α :=
  dec bytes

/-- `deserialize_many_bytes`: decodes each element independently in order
(`bytes.into_iter().map(deserialize_bytes).collect::<IoResult<Vec<_>>>()`), failing fast
on the first failure and discarding partial results. -/
def deserialize_many_bytes {α β : Type} (dec : List Nat → Except IoError α)
    (asRef : β → List Nat) : List β → Except IoError (List α)
  | [] => Except.ok []
  | b :: bs =>
      Except.bind (deserialize_bytes dec (asRef b)) (fun v =>
        Except.bind (deserialize_many_bytes dec asRef bs) (fun vs =>
          Except.ok (v :: vs)))

/-- The cryptographic parameter set (`T : Testnet1Components`): the domain field types
together with the canonical byte conversions the converter consumes.
`serialNumberCanonical` is the serial-number type's `CanonicalSerialize` /
`CanonicalDeserialize` pair; every other codec is the type's `ToBytes` / `FromBytes`
pair.  `memorandumIntoDigest` is the memorandum type's `Into<Digest>` conversion (a
plain, infallible byte copy), which `serialize` uses for the memorandum field. -/
structure Components where
  LedgerDigest : Type
  SerialNumber : Type
  Commitment : Type
  ProgramCommitment : Type
  LocalDataRoot : Type
  Signature : Type
  EncryptedRecord : Type
  Proof : Type
  Memorandum : Type
  InnerCircuitId : Type
  ledgerDigestCodec : Codec LedgerDigest
  serialNumberCanonical : Codec SerialNumber
  commitmentCodec : Codec Commitment
  programCommitmentCodec : Codec ProgramCommitment
  localDataRootCodec : Codec LocalDataRoot
  signatureCodec : Codec Signature
  recordCodec : Codec EncryptedRecord
  proofCodec : Codec Proof
  memorandumCodec : Codec Memorandum
  memorandumIntoDigest : Memorandum → Digest
  innerCircuitIdCodec : Codec InnerCircuitId

/-- The domain transaction `Transaction<T>` (field-for-field from the source's struct
literal; it has no `id` field — the identifier is derived, not stored). -/
structure Transaction (C : Components) where
  network : Network
  ledger_digest : C.LedgerDigest
  old_serial_numbers : List C.SerialNumber
  new_commitments : List C.Commitment
  program_commitment : C.ProgramCommitment
  local_data_root : C.LocalDataRoot
  value_balance : AleoAmount
  signatures : List C.Signature
  encrypted_records : List C.EncryptedRecord
  transaction_proof : C.Proof
  memorandum : C.Memorandum
  inner_circuit_id : C.InnerCircuitId

/-- `VMTransaction::deserialize` (lift): wire → domain.  Each `Except.bind` is one `?`
of the source; the serial numbers go through `CanonicalDeserialize::deserialize`, all
other fields through the generic helpers; `value_balance` and `network` are copied;
`tx.id` is never read. -/
def Transaction.deserialize (C : Components) (tx : SerialTransaction) :
    Except IoError (Transaction C) :=
  Except.bind (mapME (fun serial => C.serialNumberCanonical.dec serial.bytes) tx.old_serial_numbers) (fun old_serial_numbers =>
  Except.bind (deserialize_bytes C.ledgerDigestCodec.dec tx.ledger_digest.bytes) (fun ledger_digest =>
  Except.bind (deserialize_many_bytes C.commitmentCodec.dec Digest.bytes tx.new_commitments) (fun new_commitments =>
  Except.bind (deserialize_bytes C.programCommitmentCodec.dec tx.program_commitment.bytes) (fun program_commitment =>
  Except.bind (deserialize_bytes C.localDataRootCodec.dec tx.local_data_root.bytes) (fun local_data_root =>
  Except.bind (deserialize_many_bytes C.signatureCodec.dec Digest.bytes tx.signatures) (fun signatures =>
  Except.bind (deserialize_many_bytes C.recordCodec.dec (fun r => r) tx.new_records) (fun encrypted_records =>
  Except.bind (deserialize_bytes C.proofCodec.dec tx.transaction_proof) (fun transaction_proof =>
  Except.bind (deserialize_bytes C.memorandumCodec.dec tx.memorandum.bytes) (fun memorandum =>
  Except.bind (deserialize_bytes C.innerCircuitIdCodec.dec tx.inner_circuit_id.bytes) (fun inner_circuit_id =>
  Except.ok { network := tx.network
            , ledger_digest := ledger_digest
            , old_serial_numbers := old_serial_numbers
            , new_commitments := new_commitments
            , program_commitment := program_commitment
            , local_data_root := local_data_root
            , value_balance := tx.value_balance
            , signatures := signatures
            , encrypted_records := encrypted_records
            , transaction_proof := transaction_proof
            , memorandum := memorandum
            , inner_circuit_id := inner_circuit_id }))))))))))

/-- `VMTransaction::serialize` (lower): domain → wire.  The serial numbers are written
with `CanonicalSerialize::serialize` into a fresh `Digest` (the source's explicit loop,
inlined here as the first `mapME`); commitments, signatures, the ledger digest, the
program commitment, the local data root and the inner circuit id go through the generic
helpers; the records through the inline `write_le`-into-a-`vec![]` closure; the
memorandum through its `Into<Digest>` conversion; and `id` is the domain transaction's
own deterministic identifier derivation `transaction_id()` (`txid`, a pure function of
the domain transaction; the source's `.unwrap()` treats failure as a
programming-contract violation, so it is embedded as total). -/
def Transaction.serialize (C : Components) (txid : Transaction C → TransactionId)
    (t : Transaction C) : Except IoError SerialTransaction :=
  Except.bind (mapME (fun serial => Except.bind (C.serialNumberCanonical.enc serial) (fun bytes => Except.ok (Digest.mk bytes))) t.old_serial_numbers) (fun old_serial_numbers =>
  Except.bind (serialize_digest C.ledgerDigestCodec.enc t.ledger_digest) (fun ledger_digest =>
  Except.bind (serialize_many_digests C.commitmentCodec.enc t.new_commitments) (fun new_commitments =>
  Except.bind (serialize_digest C.programCommitmentCodec.enc t.program_commitment) (fun program_commitment =>
  Except.bind (serialize_digest C.localDataRootCodec.enc t.local_data_root) (fun local_data_root =>
  Except.bind (serialize_many_digests C.signatureCodec.enc t.signatures) (fun signatures =>
  Except.bind (mapME (fun record => Except.bind (C.recordCodec.enc record) (fun out => Except.ok out)) t.encrypted_records) (fun new_records =>
  Except.bind (serialize_bytes C.proofCodec.enc t.transaction_proof) (fun transaction_proof =>
  Except.bind (serialize_digest C.innerCircuitIdCodec.enc t.inner_circuit_id) (fun inner_circuit_id =>
  Except.ok { id := txid t
            , network := t.network
            , ledger_digest := ledger_digest
            , old_serial_numbers := old_serial_numbers
            , new_commitments := new_commitments
            , program_commitment := program_commitment
            , local_data_root := local_data_root
            , value_balance := t.value_balance
            , signatures := signatures
            , new_records := new_records
            , transaction_proof := transaction_proof
            , memorandum := C.memorandumIntoDigest t.memorandum
            , inner_circuit_id := inner_circuit_id })))))))))

/-! ### The domain transaction's own canonical encoding, and spec-side formulas -/

/-- Modelled from the spec: `ToBytes for Transaction<T>` (external `snarkvm_dpc` code,
not under `src/`) — the domain transaction's own canonical byte encoding, asserted by
the spec's round-trip law and exercised by the repository's `transaction_round_trip`
test (`to_bytes_le![deserialized]`).  It writes the same fields in the same order as
the wire encoding, each through the value's canonical writer (the canonical serializer
for serial numbers). -/
def Transaction.to_bytes_le (C : Components) (t : Transaction C) :
    Except IoError (List Nat) :=
  Except.bind (mapME C.serialNumberCanonical.enc t.old_serial_numbers) (fun osn =>
  Except.bind (mapME C.commitmentCodec.enc t.new_commitments) (fun ncs =>
  Except.bind (C.memorandumCodec.enc t.memorandum) (fun mem =>
  Except.bind (C.ledgerDigestCodec.enc t.ledger_digest) (fun ld =>
  Except.bind (C.innerCircuitIdCodec.enc t.inner_circuit_id) (fun ic =>
  Except.bind (C.proofCodec.enc t.transaction_proof) (fun pf =>
  Except.bind (C.programCommitmentCodec.enc t.program_commitment) (fun pc =>
  Except.bind (C.localDataRootCodec.enc t.local_data_root) (fun ldr =>
  Except.bind (mapME C.signatureCodec.enc t.signatures) (fun sigs =>
  Except.bind (mapME C.recordCodec.enc t.encrypted_records) (fun recs =>
  Except.ok (osn.flatten ++ ncs.flatten ++ mem ++ ld ++ ic ++ pf ++ pc ++ ldr
    ++ intToLeBytes 8 t.value_balance ++ networkBytes t.network
    ++ sigs.flatten ++ recs.flatten)))))))))))

/-- The size formula exactly as the specification's sentence states it: base struct
size, plus one digest unit per serial number, commitment and signature, plus the summed
byte lengths of the encrypted record payloads, plus the proof byte length — and nothing
else.  (Stated from the spec's words, for comparison with `SerialTransaction.size`.) -/
def specSize (szSerialTransaction szDigest : Nat) (t : SerialTransaction) : Nat :=
  szSerialTransaction
    + szDigest * (t.old_serial_numbers.length + t.new_commitments.length + t.signatures.length)
    + (t.new_records.map (fun x => x.length)).sum
    + t.transaction_proof.length

/-- The amended size formula: the claim's formula plus the per-record struct overhead
`size_of::<SerialRecord>() * new_records.len()` that the source also adds. -/
def specSizeAmended (szSerialTransaction szDigest szSerialRecord : Nat)
    (t : SerialTransaction) : Nat :=
  specSize szSerialTransaction szDigest t + szSerialRecord * t.new_records.length

/-! ### Concrete parameter sets for witnesses and counterexamples -/

/-- The identity codec on raw byte lists: encoding always succeeds and returns the
value's bytes, decoding returns them back.  A minimal lawful parameter set. -/
def trivCodec : Codec (List Nat) where
  enc := fun x => Except.ok x
  dec := fun bs => Except.ok bs

/-- A concrete parameter set in which every domain field type is a raw byte list with
the identity codec. -/
def TrivC : Components where
  LedgerDigest := List Nat
  SerialNumber := List Nat
  Commitment := List Nat
  ProgramCommitment := List Nat
  LocalDataRoot := List Nat
  Signature := List Nat
  EncryptedRecord := List Nat
  Proof := List Nat
  Memorandum := List Nat
  InnerCircuitId := List Nat
  ledgerDigestCodec := trivCodec
  serialNumberCanonical := trivCodec
  commitmentCodec := trivCodec
  programCommitmentCodec := trivCodec
  localDataRootCodec := trivCodec
  signatureCodec := trivCodec
  recordCodec := trivCodec
  proofCodec := trivCodec
  memorandumCodec := trivCodec
  memorandumIntoDigest := fun m => Digest.mk m
  innerCircuitIdCodec := trivCodec

/-- A concrete deterministic identifier derivation for `TrivC`. -/
def trivId : Transaction TrivC → TransactionId := fun _ => List.replicate 32 0

/-- A concrete domain transaction over `TrivC`: two spent records, two new commitments
with their two encrypted records, one signature, a value balance of 1000 (the shape of
the repository's `transaction_round_trip` test). -/
def trivTx : Transaction TrivC where
  network := 1
  ledger_digest := [1]
  old_serial_numbers := [[2], [3]]
  new_commitments := [[4], [5]]
  program_commitment := [6]
  local_data_root := [7]
  value_balance := 1000
  signatures := [[8]]
  encrypted_records := [[9], [10]]
  transaction_proof := [11, 12]
  memorandum := [13]
  inner_circuit_id := [14]

/-- The wire transaction `serialize` produces from `trivTx`. -/
def trivSer : SerialTransaction where
  id := List.replicate 32 0
  network := 1
  ledger_digest := Digest.mk [1]
  old_serial_numbers := [Digest.mk [2], Digest.mk [3]]
  new_commitments := [Digest.mk [4], Digest.mk [5]]
  program_commitment := Digest.mk [6]
  local_data_root := Digest.mk [7]
  value_balance := 1000
  signatures := [Digest.mk [8]]
  new_records := [[9], [10]]
  transaction_proof := [11, 12]
  memorandum := Digest.mk [13]
  inner_circuit_id := Digest.mk [14]

/-- A memorandum codec whose `ToBytes` writer prepends a tag byte, so that it visibly
differs from the memorandum type's `Into<Digest>` byte copy. -/
def memCodec : Codec (List Nat) where
  enc := fun m => Except.ok (0 :: m)
  dec := fun bs => Except.ok bs

/-- `TrivC` with the tagged memorandum codec: a parameter set on which the generic
digest encoder and the `Into<Digest>` conversion of the memorandum disagree. -/
def MemC : Components :=
  { TrivC with memorandumCodec := memCodec }

/-- A concrete domain transaction over `MemC` with memorandum bytes `[12]`. -/
def memTx : Transaction MemC where
  network := 0
  ledger_digest := []
  old_serial_numbers := []
  new_commitments := []
  program_commitment := []
  local_data_root := []
  value_balance := 0
  signatures := []
  encrypted_records := []
  transaction_proof := []
  memorandum := [12]
  inner_circuit_id := []

/-- The wire transaction `serialize` produces from `memTx`: its `memorandum` is the
`Into<Digest>` byte copy `[12]`, not the generic encoder's output `[0, 12]`. -/
def memSer : SerialTransaction where
  id := List.replicate 32 0
  network := 0
  ledger_digest := Digest.mk []
  old_serial_numbers := []
  new_commitments := []
  program_commitment := Digest.mk []
  local_data_root := Digest.mk []
  value_balance := 0
  signatures := []
  new_records := []
  transaction_proof := []
  memorandum := Digest.mk [12]
  inner_circuit_id := Digest.mk []

/-- A wire transaction with one new commitment but no encrypted records: it violates
the `len(new_records) == len(new_commitments)` invariant. -/
def misTx : SerialTransaction where
  id := List.replicate 32 0
  network := 0
  ledger_digest := Digest.mk [1]
  old_serial_numbers := []
  new_commitments := [Digest.mk [2]]
  program_commitment := Digest.mk [3]
  local_data_root := Digest.mk [4]
  value_balance := 0
  signatures := []
  new_records := []
  transaction_proof := []
  memorandum := Digest.mk [5]
  inner_circuit_id := Digest.mk [6]

/-- The domain transaction `deserialize` happily produces from the length-mismatched
`misTx` (one commitment, no encrypted records). -/
def misDomain : Transaction TrivC where
  network := 0
  ledger_digest := [1]
  old_serial_numbers := []
  new_commitments := [[2]]
  program_commitment := [3]
  local_data_root := [4]
  value_balance := 0
  signatures := []
  encrypted_records := []
  transaction_proof := []
  memorandum := [5]
  inner_circuit_id := [6]

/-- A wire transaction whose only variable-length content is a single empty encrypted
record payload. -/
def oneRecTx : SerialTransaction where
  id := []
  network := 0
  ledger_digest := Digest.mk []
  old_serial_numbers := []
  new_commitments := []
  program_commitment := Digest.mk []
  local_data_root := Digest.mk []
  value_balance := 0
  signatures := []
  new_records := [[]]
  transaction_proof := []
  memorandum := Digest.mk []
  inner_circuit_id := Digest.mk []

/-- A concrete decoder that fails with error tag 7 exactly on the byte string `[0]`. -/
def failOnZeroDec : List Nat → Except IoError (List Nat) :=
  fun bs => if bs = [0] then Except.error 7 else Except.ok bs

/-! ### Helper lemmas about the writer and the batched codecs -/

/-- Unwrapping a freshly wrapped digest returns its bytes. -/
@[simp] theorem Digest.bytes_mk (bs : List Nat) : (Digest.mk bs).bytes = bs := rfl

/-- Folding `write_all` over a sequence appends the concatenation of the written
byte strings. -/
theorem foldl_writeAll_map {β : Type} (f : β → List Nat) (l : List β) (w : List Nat) :
    List.foldl (fun acc b => writeAll acc (f b)) w l = w ++ (l.map f).flatten := by
  induction l generalizing w with
  | nil => simp
  | cons x xs ih =>
      simp only [List.foldl_cons, ih, List.map_cons, List.flatten_cons]
      simp [writeAll, List.append_assoc]

/-- Closed form of the canonical byte encoding: the concatenation of the fields in the
source's write order. -/
theorem SerialTransaction.write_le_eq (t : SerialTransaction) (w : List Nat) :
    t.write_le w =
      w ++ (t.old_serial_numbers.map Digest.bytes).flatten
        ++ (t.new_commitments.map Digest.bytes).flatten
        ++ t.memorandum.bytes ++ t.ledger_digest.bytes ++ t.inner_circuit_id.bytes
        ++ t.transaction_proof ++ t.program_commitment.bytes ++ t.local_data_root.bytes
        ++ intToLeBytes 8 t.value_balance ++ networkBytes t.network
        ++ (t.signatures.map Digest.bytes).flatten
        ++ (t.new_records.map vecU8WriteLe).flatten := by
  simp only [SerialTransaction.write_le]
  rw [foldl_writeAll_map Digest.bytes t.old_serial_numbers,
      foldl_writeAll_map Digest.bytes t.new_commitments,
      foldl_writeAll_map Digest.bytes t.signatures,
      foldl_writeAll_map vecU8WriteLe t.new_records]
  simp [writeAll, List.append_assoc]

/-- `Except.bind` on a success passes the value on. -/
@[simp] theorem bind_ok {α β : Type} (a : α) (f : α → Except IoError β) :
    Except.bind (Except.ok a) f = f a := rfl

/-- `Except.bind` on an error propagates the error unchanged. -/
@[simp] theorem bind_error {α β : Type} (e : IoError) (f : α → Except IoError β) :
    Except.bind (Except.error e : Except IoError α) f = Except.error e := rfl

/-- Inverting a successful `Except.bind`. -/
theorem bind_ok_elim {α β : Type} {ma : Except IoError α} {f : α → Except IoError β}
    {b : β} (h : Except.bind ma f = Except.ok b) :
    ∃ a, ma = Except.ok a ∧ f a = Except.ok b := by
  cases ma with
  | error e => simp [Except.bind] at h
  | ok a => exact ⟨a, rfl, by simpa [Except.bind] using h⟩

/-- A successful `mapME` run decodes/encodes the elements pointwise, in order. -/
theorem mapME_ok_forall₂ {α β : Type} {f : α → Except IoError β} :
    ∀ {l : List α} {ys : List β}, mapME f l = Except.ok ys →
      List.Forall₂ (fun x y => f x = Except.ok y) l ys := by
  intro l
  induction l with
  | nil =>
      intro ys h
      simp [mapME] at h
      subst h
      exact List.Forall₂.nil
  | cons x xs ih =>
      intro ys h
      obtain ⟨y, hx, h⟩ := bind_ok_elim h
      obtain ⟨ys', hxs, h⟩ := bind_ok_elim h
      obtain rfl : y :: ys' = ys := by simpa using h
      exact List.Forall₂.cons hx (ih hxs)

/-- Pointwise successful conversions assemble into a successful `mapME` run. -/
theorem mapME_of_forall₂ {α β : Type} {f : α → Except IoError β} {l : List α}
    {ys : List β} (h : List.Forall₂ (fun x y => f x = Except.ok y) l ys) :
    mapME f l = Except.ok ys := by
  induction h with
  | nil => rfl
  | cons hxy _ ih => simp [mapME, hxy, ih, Except.bind]

/-- A successful `mapME` run preserves the element count. -/
theorem mapME_ok_length {α β : Type} {f : α → Except IoError β} {l : List α}
    {ys : List β} (h : mapME f l = Except.ok ys) : ys.length = l.length :=
  (mapME_ok_forall₂ h).length_eq.symm

/-- `mapME` fails fast: if every element before `b` converts and `b` fails with `e`,
the whole run returns exactly `e` (no partial output). -/
theorem mapME_append_error {α β : Type} (f : α → Except IoError β) (pre : List α)
    (b : α) (post : List α) (e : IoError)
    (hpre : ∀ x ∈ pre, ∃ y, f x = Except.ok y) (hb : f b = Except.error e) :
    mapME f (pre ++ b :: post) = Except.error e := by
  induction pre with
  | nil => simp [mapME, hb, Except.bind]
  | cons x xs ih =>
      obtain ⟨y, hy⟩ := hpre x (by simp)
      have ih' := ih (fun z hz => hpre z (by simp [hz]))
      simp [mapME, hy, ih', Except.bind]

/-- `deserialize_many_bytes` is the fail-fast sequence transform of
`deserialize_bytes` over the borrowed byte slices. -/
theorem deserialize_many_bytes_eq_mapME {α β : Type} (dec : List Nat → Except IoError α)
    (asRef : β → List Nat) (l : List β) :
    deserialize_many_bytes dec asRef l
      = mapME (fun b => deserialize_bytes dec (asRef b)) l := by
  induction l with
  | nil => rfl
  | cons x xs ih => simp [deserialize_many_bytes, mapME, ih]

/-- For a lawful codec, encoding a list and wrapping each buffer as a `Digest` succeeds,
and decoding those digests (directly or through `deserialize_many_bytes`) recovers the
list.  Bundles every shape in which the converter consumes a digest-sequence codec. -/
theorem mapME_lawful_digests {α : Type} (enc : α → Except IoError (List Nat))
    (dec : List Nat → Except IoError α)
    (h : ∀ x, ∃ bs, enc x = Except.ok bs ∧ dec bs = Except.ok x) (l : List α) :
    ∃ bss : List (List Nat),
      mapME enc l = Except.ok bss
      ∧ mapME (fun x => Except.bind (enc x) (fun bytes => Except.ok (Digest.mk bytes))) l
          = Except.ok (bss.map Digest.mk)
      ∧ mapME (fun d => dec d.bytes) (bss.map Digest.mk) = Except.ok l
      ∧ deserialize_many_bytes dec Digest.bytes (bss.map Digest.mk) = Except.ok l
      ∧ serialize_many_digests enc l = Except.ok (bss.map Digest.mk) := by
  induction l with
  | nil => exact ⟨[], rfl, rfl, rfl, rfl, rfl⟩
  | cons x xs ih =>
      obtain ⟨bs, he, hd⟩ := h x
      obtain ⟨bss, ih1, ih2, ih3, ih4, ih5⟩ := ih
      simp only [serialize_many_digests] at ih5
      refine ⟨bs :: bss, ?_, ?_, ?_, ?_, ?_⟩
      · simp [mapME, he, ih1]
      · simp [mapME, he, ih2]
      · simp [mapME, hd, ih3]
      · simp [deserialize_many_bytes, deserialize_bytes, hd, ih4]
      · simp [serialize_many_digests, mapME, serialize_digest, he, ih5]

/-- For a lawful codec, encoding a list of records into raw byte buffers succeeds and
`deserialize_many_bytes` recovers the list. -/
theorem mapME_lawful_bytes {α : Type} (enc : α → Except IoError (List Nat))
    (dec : List Nat → Except IoError α)
    (h : ∀ x, ∃ bs, enc x = Except.ok bs ∧ dec bs = Except.ok x) (l : List α) :
    ∃ bss : List (List Nat),
      mapME (fun x => Except.bind (enc x) (fun out => Except.ok out)) l = Except.ok bss
      ∧ mapME enc l = Except.ok bss
      ∧ deserialize_many_bytes dec (fun r => r) bss = Except.ok l := by
  induction l with
  | nil => exact ⟨[], rfl, rfl, rfl⟩
  | cons x xs ih =>
      obtain ⟨bs, he, hd⟩ := h x
      obtain ⟨bss, ih1, ih2, ih3⟩ := ih
      refine ⟨bs :: bss, ?_, ?_, ?_⟩
      · simp [mapME, he, ih1]
      · simp [mapME, he, ih2]
      · simp [deserialize_many_bytes, deserialize_bytes, hd, ih3]

/-- Characterization of a successful `serialize` (lower) run: each field is produced by
the codec path the source uses for it, and the wire transaction is assembled from the
results, with `id := txid t` and `memorandum` converted by `Into<Digest>`. -/
theorem serialize_ok_elim (C : Components) (txid : Transaction C → TransactionId)
    (t : Transaction C) (s : SerialTransaction)
    (h : Transaction.serialize C txid t = Except.ok s) :
    ∃ osn ld nc pc ldr sg nr pf ic,
      mapME (fun serial => Except.bind (C.serialNumberCanonical.enc serial)
          (fun bytes => Except.ok (Digest.mk bytes))) t.old_serial_numbers = Except.ok osn
      ∧ serialize_digest C.ledgerDigestCodec.enc t.ledger_digest = Except.ok ld
      ∧ serialize_many_digests C.commitmentCodec.enc t.new_commitments = Except.ok nc
      ∧ serialize_digest C.programCommitmentCodec.enc t.program_commitment = Except.ok pc
      ∧ serialize_digest C.localDataRootCodec.enc t.local_data_root = Except.ok ldr
      ∧ serialize_many_digests C.signatureCodec.enc t.signatures = Except.ok sg
      ∧ mapME (fun record => Except.bind (C.recordCodec.enc record)
          (fun out => Except.ok out)) t.encrypted_records = Except.ok nr
      ∧ serialize_bytes C.proofCodec.enc t.transaction_proof = Except.ok pf
      ∧ serialize_digest C.innerCircuitIdCodec.enc t.inner_circuit_id = Except.ok ic
      ∧ s = { id := txid t, network := t.network, ledger_digest := ld
            , old_serial_numbers := osn, new_commitments := nc, program_commitment := pc
            , local_data_root := ldr, value_balance := t.value_balance, signatures := sg
            , new_records := nr, transaction_proof := pf
            , memorandum := C.memorandumIntoDigest t.memorandum, inner_circuit_id := ic } := by
  unfold Transaction.serialize at h
  obtain ⟨osn, h1, h⟩ := bind_ok_elim h
  obtain ⟨ld, h2, h⟩ := bind_ok_elim h
  obtain ⟨nc, h3, h⟩ := bind_ok_elim h
  obtain ⟨pc, h4, h⟩ := bind_ok_elim h
  obtain ⟨ldr, h5, h⟩ := bind_ok_elim h
  obtain ⟨sg, h6, h⟩ := bind_ok_elim h
  obtain ⟨nr, h7, h⟩ := bind_ok_elim h
  obtain ⟨pf, h8, h⟩ := bind_ok_elim h
  obtain ⟨ic, h9, h⟩ := bind_ok_elim h
  exact ⟨osn, ld, nc, pc, ldr, sg, nr, pf, ic, h1, h2, h3, h4, h5, h6, h7, h8, h9,
    by simpa using h.symm⟩

/-- Assembling a successful `serialize` (lower) run from its field conversions. -/
theorem serialize_ok_intro (C : Components) (txid : Transaction C → TransactionId)
    (t : Transaction C) {osn nc sg : List Digest} {ld pc ldr ic : Digest}
    {nr : List (List Nat)} {pf : List Nat}
    (h1 : mapME (fun serial => Except.bind (C.serialNumberCanonical.enc serial)
        (fun bytes => Except.ok (Digest.mk bytes))) t.old_serial_numbers = Except.ok osn)
    (h2 : serialize_digest C.ledgerDigestCodec.enc t.ledger_digest = Except.ok ld)
    (h3 : serialize_many_digests C.commitmentCodec.enc t.new_commitments = Except.ok nc)
    (h4 : serialize_digest C.programCommitmentCodec.enc t.program_commitment = Except.ok pc)
    (h5 : serialize_digest C.localDataRootCodec.enc t.local_data_root = Except.ok ldr)
    (h6 : serialize_many_digests C.signatureCodec.enc t.signatures = Except.ok sg)
    (h7 : mapME (fun record => Except.bind (C.recordCodec.enc record)
        (fun out => Except.ok out)) t.encrypted_records = Except.ok nr)
    (h8 : serialize_bytes C.proofCodec.enc t.transaction_proof = Except.ok pf)
    (h9 : serialize_digest C.innerCircuitIdCodec.enc t.inner_circuit_id = Except.ok ic) :
    Transaction.serialize C txid t = Except.ok
      { id := txid t, network := t.network, ledger_digest := ld
      , old_serial_numbers := osn, new_commitments := nc, program_commitment := pc
      , local_data_root := ldr, value_balance := t.value_balance, signatures := sg
      , new_records := nr, transaction_proof := pf
      , memorandum := C.memorandumIntoDigest t.memorandum, inner_circuit_id := ic } := by
  unfold Transaction.serialize
  rw [h1, h2, h3, h4, h5, h6, h7, h8, h9]
  simp only [bind_ok]

/-- Characterization of a successful `deserialize` (lift) run: each field is decoded by
the codec path the source uses for it, `value_balance` and `network` are copied, and
the stored `id` is never read. -/
theorem deserialize_ok_elim (C : Components) (tx : SerialTransaction)
    (d : Transaction C) (h : Transaction.deserialize C tx = Except.ok d) :
    ∃ osn ld nc pc ldr sg recs pf mem ic,
      mapME (fun serial => C.serialNumberCanonical.dec serial.bytes) tx.old_serial_numbers
          = Except.ok osn
      ∧ deserialize_bytes C.ledgerDigestCodec.dec tx.ledger_digest.bytes = Except.ok ld
      ∧ deserialize_many_bytes C.commitmentCodec.dec Digest.bytes tx.new_commitments
          = Except.ok nc
      ∧ deserialize_bytes C.programCommitmentCodec.dec tx.program_commitment.bytes
          = Except.ok pc
      ∧ deserialize_bytes C.localDataRootCodec.dec tx.local_data_root.bytes = Except.ok ldr
      ∧ deserialize_many_bytes C.signatureCodec.dec Digest.bytes tx.signatures = Except.ok sg
      ∧ deserialize_many_bytes C.recordCodec.dec (fun r => r) tx.new_records = Except.ok recs
      ∧ deserialize_bytes C.proofCodec.dec tx.transaction_proof = Except.ok pf
      ∧ deserialize_bytes C.memorandumCodec.dec tx.memorandum.bytes = Except.ok mem
      ∧ deserialize_bytes C.innerCircuitIdCodec.dec tx.inner_circuit_id.bytes = Except.ok ic
      ∧ d = { network := tx.network, ledger_digest := ld, old_serial_numbers := osn
            , new_commitments := nc, program_commitment := pc, local_data_root := ldr
            , value_balance := tx.value_balance, signatures := sg
            , encrypted_records := recs, transaction_proof := pf, memorandum := mem
            , inner_circuit_id := ic } := by
  unfold Transaction.deserialize at h
  obtain ⟨osn, h1, h⟩ := bind_ok_elim h
  obtain ⟨ld, h2, h⟩ := bind_ok_elim h
  obtain ⟨nc, h3, h⟩ := bind_ok_elim h
  obtain ⟨pc, h4, h⟩ := bind_ok_elim h
  obtain ⟨ldr, h5, h⟩ := bind_ok_elim h
  obtain ⟨sg, h6, h⟩ := bind_ok_elim h
  obtain ⟨recs, h7, h⟩ := bind_ok_elim h
  obtain ⟨pf, h8, h⟩ := bind_ok_elim h
  obtain ⟨mem, h9, h⟩ := bind_ok_elim h
  obtain ⟨ic, h10, h⟩ := bind_ok_elim h
  exact ⟨osn, ld, nc, pc, ldr, sg, recs, pf, mem, ic, h1, h2, h3, h4, h5, h6, h7, h8, h9,
    h10, by simpa using h.symm⟩

/-- Assembling a successful `deserialize` (lift) run from its field decodings. -/
theorem deserialize_ok_intro (C : Components) (tx : SerialTransaction)
    {osn : List C.SerialNumber} {ld : C.LedgerDigest} {nc : List C.Commitment}
    {pc : C.ProgramCommitment} {ldr : C.LocalDataRoot} {sg : List C.Signature}
    {recs : List C.EncryptedRecord} {pf : C.Proof} {mem : C.Memorandum}
    {ic : C.InnerCircuitId}
    (h1 : mapME (fun serial => C.serialNumberCanonical.dec serial.bytes)
        tx.old_serial_numbers = Except.ok osn)
    (h2 : deserialize_bytes C.ledgerDigestCodec.dec tx.ledger_digest.bytes = Except.ok ld)
    (h3 : deserialize_many_bytes C.commitmentCodec.dec Digest.bytes tx.new_commitments
        = Except.ok nc)
    (h4 : deserialize_bytes C.programCommitmentCodec.dec tx.program_commitment.bytes
        = Except.ok pc)
    (h5 : deserialize_bytes C.localDataRootCodec.dec tx.local_data_root.bytes
        = Except.ok ldr)
    (h6 : deserialize_many_bytes C.signatureCodec.dec Digest.bytes tx.signatures
        = Except.ok sg)
    (h7 : deserialize_many_bytes C.recordCodec.dec (fun r => r) tx.new_records
        = Except.ok recs)
    (h8 : deserialize_bytes C.proofCodec.dec tx.transaction_proof = Except.ok pf)
    (h9 : deserialize_bytes C.memorandumCodec.dec tx.memorandum.bytes = Except.ok mem)
    (h10 : deserialize_bytes C.innerCircuitIdCodec.dec tx.inner_circuit_id.bytes
        = Except.ok ic) :
    Transaction.deserialize C tx = Except.ok
      { network := tx.network, ledger_digest := ld, old_serial_numbers := osn
      , new_commitments := nc, program_commitment := pc, local_data_root := ldr
      , value_balance := tx.value_balance, signatures := sg, encrypted_records := recs
      , transaction_proof := pf, memorandum := mem, inner_circuit_id := ic } := by
  unfold Transaction.deserialize
  rw [h1, h2, h3, h4, h5, h6, h7, h8, h9, h10]
  simp only [bind_ok]

/-! ### Additional small helper lemmas -/

/-- Writing each encrypted record payload writes exactly its bytes. -/
@[simp] theorem map_vecU8WriteLe (l : List (List Nat)) : l.map vecU8WriteLe = l := by
  induction l with
  | nil => rfl
  | cons x xs ih => simp [vecU8WriteLe, ih]

/-- Projecting the bytes back out of freshly wrapped digests. -/
@[simp] theorem map_bytes_map_mk (l : List (List Nat)) :
    (l.map Digest.mk).map Digest.bytes = l := by
  induction l with
  | nil => rfl
  | cons x xs ih => simp [ih]

/-- Composition form of `map_bytes_map_mk`. -/
@[simp] theorem map_bytes_comp_mk (l : List (List Nat)) :
    List.map (Digest.bytes ∘ Digest.mk) l = l := by
  induction l with
  | nil => rfl
  | cons x xs ih => simp [ih]

/-! ### The claims -/

/-- Claim C2: the canonical encoding `write_le` of a `SerialTransaction` emits, after
the previously written prefix `w`, exactly the following and nothing else, in this
order: each old serial number in sequence order, each new commitment in sequence order,
the memorandum, the ledger digest, the inner circuit id, the transaction proof bytes,
the program commitment, the local data root, the value balance, the network tag, each
signature in sequence order, and each new record payload in sequence order. -/
theorem claim_C2_write_le_layout (t : SerialTransaction) (w : List Nat) :
    t.write_le w =
      w ++ (t.old_serial_numbers.map Digest.bytes).flatten
        ++ (t.new_commitments.map Digest.bytes).flatten
        ++ t.memorandum.bytes ++ t.ledger_digest.bytes ++ t.inner_circuit_id.bytes
        ++ t.transaction_proof ++ t.program_commitment.bytes ++ t.local_data_root.bytes
        ++ intToLeBytes 8 t.value_balance ++ networkBytes t.network
        ++ (t.signatures.map Digest.bytes).flatten
        ++ (t.new_records.map vecU8WriteLe).flatten :=
  t.write_le_eq w

/-- Claim C8: the `id` field is not part of the canonical byte encoding — two
`SerialTransaction`s that differ only in `id` have identical `write_le` output. -/
theorem claim_C8_write_le_ignores_id (t : SerialTransaction) (i : TransactionId)
    (w : List Nat) :
    SerialTransaction.write_le { t with id := i } w = t.write_le w := rfl

/-- Claim C10: `deserialize` (lift) never reads the wire transaction's `id` field —
on two `SerialTransaction`s that differ only in `id` it returns the same result
(the same domain transaction, or the same error). -/
theorem claim_C10_deserialize_ignores_id (C : Components) (s : SerialTransaction)
    (i : TransactionId) :
    Transaction.deserialize C { s with id := i } = Transaction.deserialize C s := rfl

/-- Claim C4 counterexample: with a single (empty) encrypted record payload and the
record-struct layout constant taken as 1 (it is positive for any real layout), `size()`
exceeds the claimed formula by `size_of::<SerialRecord>() * new_records.len()` — the
source adds a per-record struct overhead the claim omits. -/
theorem claim_C4_counterexample :
    SerialTransaction.size 0 0 1 oneRecTx = 1 ∧ specSize 0 0 oneRecTx = 0 := by
  constructor <;> rfl

/-- Claim C4 (amended): `size()` returns the base struct size, plus one digest unit per
old serial number, new commitment and signature, plus one record-struct unit per new
record payload, plus the summed byte lengths of all encrypted record payloads, plus the
transaction proof byte length — computed only from existing length fields. -/
theorem claim_C4_size_formula (a b c : Nat) (t : SerialTransaction) :
    t.size a b c = specSizeAmended a b c t := by
  simp only [SerialTransaction.size, specSizeAmended, specSize]
  ring

/-- Claim C7: `size()` is non-decreasing in the element counts of
`old_serial_numbers`, `new_commitments` and `new_records`, in the byte length of
`transaction_proof`, and in the byte length of each individual record payload:
appending an element to any of the sequences, or growing the proof blob or any one
record blob, never decreases the reported size. -/
theorem claim_C7_size_monotone (a b c : Nat) (t : SerialTransaction) (d : Digest)
    (r ext : List Nat) (r1 r2 : List (List Nat)) :
    t.size a b c
        ≤ SerialTransaction.size a b c
            { t with old_serial_numbers := t.old_serial_numbers ++ [d] }
    ∧ t.size a b c
        ≤ SerialTransaction.size a b c { t with new_commitments := t.new_commitments ++ [d] }
    ∧ t.size a b c
        ≤ SerialTransaction.size a b c { t with new_records := t.new_records ++ [r] }
    ∧ t.size a b c
        ≤ SerialTransaction.size a b c
            { t with transaction_proof := t.transaction_proof ++ ext }
    ∧ SerialTransaction.size a b c { t with new_records := r1 ++ r :: r2 }
        ≤ SerialTransaction.size a b c { t with new_records := r1 ++ (r ++ ext) :: r2 } := by
  refine ⟨?_, ?_, ?_, ?_, ?_⟩ <;>
    simp only [SerialTransaction.size, List.length_append, List.map_append, List.map_cons,
      List.sum_append, List.sum_cons, List.length_cons, List.length_nil, List.map_nil,
      List.sum_nil, Nat.mul_add, Nat.mul_one, Nat.mul_zero] <;>
    nlinarith [Nat.zero_le a, Nat.zero_le b, Nat.zero_le c]

/-- Claim C6: `deserialize_many_bytes` decodes each element independently in order —
on success it returns exactly one decoded value per input element, pointwise in input
order; and if the elements before `b` all decode while `b` fails with error `e`, the
whole call returns exactly `e` (fail fast, no partial output surfaced). -/
theorem claim_C6_deserialize_many_bytes_fail_fast {α β : Type}
    (dec : List Nat → Except IoError α) (asRef : β → List Nat) :
    (∀ (bss : List β) (l : List α),
        deserialize_many_bytes dec asRef bss = Except.ok l →
        l.length = bss.length
          ∧ List.Forall₂ (fun b v => deserialize_bytes dec (asRef b) = Except.ok v) bss l)
    ∧ (∀ (pre : List β) (b : β) (post : List β) (e : IoError),
        (∀ x ∈ pre, ∃ v, deserialize_bytes dec (asRef x) = Except.ok v) →
        deserialize_bytes dec (asRef b) = Except.error e →
        deserialize_many_bytes dec asRef (pre ++ b :: post) = Except.error e) := by
  constructor
  · intro bss l h
    rw [deserialize_many_bytes_eq_mapME] at h
    exact ⟨mapME_ok_length h, mapME_ok_forall₂ h⟩
  · intro pre b post e hpre hb
    rw [deserialize_many_bytes_eq_mapME]
    exact mapME_append_error _ pre b post e hpre hb

/-- Witness for claim C6: with the decoder that fails with tag 7 on `[0]`, decoding
`[[1], [0], [2]]` fails with exactly error 7 although the first element decodes. -/
theorem claim_C6_witness :
    deserialize_many_bytes failOnZeroDec (fun r => r) ([[1]] ++ [0] :: [[2]])
      = Except.error 7 :=
  (claim_C6_deserialize_many_bytes_fail_fast failOnZeroDec (fun r => r)).2
    [[1]] [0] [[2]] 7
    (by
      intro x hx
      simp only [List.mem_singleton] at hx
      subst hx
      exact ⟨[1], rfl⟩)
    rfl

/-- Claim C5: `serialize` (lower) is deterministic and derives `id` from the domain
transaction's content — two runs on the same domain transaction return the same wire
transaction, whose `id` is exactly the domain transaction's deterministic identifier
derivation applied to its (non-id) content. -/
theorem claim_C5_id_deterministic (C : Components) (txid : Transaction C → TransactionId)
    (t : Transaction C) (s s' : SerialTransaction)
    (h : Transaction.serialize C txid t = Except.ok s)
    (h' : Transaction.serialize C txid t = Except.ok s') :
    s' = s ∧ s.id = txid t := by
  constructor
  · injection h.symm.trans h' with hh
    exact hh.symm
  · obtain ⟨osn, ld, nc, pc, ldr, sg, nr, pf, ic, _, _, _, _, _, _, _, _, _, hs⟩ :=
      serialize_ok_elim C txid t s h
    rw [hs]

/-- Witness for claim C5: two runs of `serialize` on `trivTx` both return `trivSer`,
whose `id` is `trivId trivTx`. -/
theorem claim_C5_witness : trivSer = trivSer ∧ trivSer.id = trivId trivTx :=
  claim_C5_id_deterministic TrivC trivId trivTx trivSer trivSer rfl rfl

/-- Claim C3 counterexample: `misTx` has one new commitment and no encrypted record,
yet `deserialize` (lift) succeeds on it instead of failing with a decode error; and
`serialize` (lower) of the equally mismatched domain transaction `misDomain` succeeds
and emits exactly this mismatched wire transaction — neither direction enforces
`len(new_records) == len(new_commitments)`. -/
theorem claim_C3_counterexample :
    misTx.new_records.length ≠ misTx.new_commitments.length
    ∧ Transaction.deserialize TrivC misTx = Except.ok misDomain
    ∧ Transaction.serialize TrivC trivId misDomain = Except.ok misTx := by
  refine ⟨by decide, rfl, rfl⟩

/-- Claim C3 (amended): `serialize` (lower) preserves the domain transaction's counts —
`lower(t)` has one wire record per domain encrypted record and one wire commitment per
domain commitment, so the `len(new_records) == len(new_commitments)` invariant holds
exactly when the domain transaction has one encrypted record per commitment; and
`deserialize` (lift) performs no length cross-check: it preserves both counts without
dropping or duplicating elements, succeeding even on mismatched wire data whose fields
decode. -/
theorem claim_C3_length_preservation (C : Components)
    (txid : Transaction C → TransactionId) :
    (∀ (t : Transaction C) (s : SerialTransaction),
        Transaction.serialize C txid t = Except.ok s →
        s.new_records.length = t.encrypted_records.length
          ∧ s.new_commitments.length = t.new_commitments.length)
    ∧ (∀ (s : SerialTransaction) (d : Transaction C),
        Transaction.deserialize C s = Except.ok d →
        d.encrypted_records.length = s.new_records.length
          ∧ d.new_commitments.length = s.new_commitments.length) := by
  constructor
  · intro t s h
    obtain ⟨osn, ld, nc, pc, ldr, sg, nr, pf, ic, _, _, h3, _, _, _, h7, _, _, hs⟩ :=
      serialize_ok_elim C txid t s h
    subst hs
    simp only [serialize_many_digests] at h3
    exact ⟨mapME_ok_length h7, mapME_ok_length h3⟩
  · intro s d h
    obtain ⟨osn, ld, nc, pc, ldr, sg, recs, pf, mem, ic, _, _, h3, _, _, _, h7, _, _, _, hd⟩ :=
      deserialize_ok_elim C s d h
    subst hd
    rw [deserialize_many_bytes_eq_mapME] at h3 h7
    exact ⟨mapME_ok_length h7, mapME_ok_length h3⟩

/-- Witness for claim C3: on the concrete `trivTx` (two commitments, two records),
`serialize` preserves both counts. -/
theorem claim_C3_witness :
    trivSer.new_records.length = trivTx.encrypted_records.length
    ∧ trivSer.new_commitments.length = trivTx.new_commitments.length :=
  (claim_C3_length_preservation TrivC trivId).1 trivTx trivSer rfl

/-- Claim C9 counterexample: on a parameter set whose memorandum `ToBytes` writer tags
its output, `serialize` succeeds, but the produced `memorandum` is the `Into<Digest>`
byte copy `[12]`, not the generic digest encoder's output `[0, 12]` — in `serialize`
the memorandum does not go through the generic digest helper. -/
theorem claim_C9_counterexample :
    Transaction.serialize MemC (fun _ => List.replicate 32 0) memTx = Except.ok memSer
    ∧ serialize_digest MemC.memorandumCodec.enc memTx.memorandum
        = Except.ok (Digest.mk [0, 12])
    ∧ memSer.memorandum = Digest.mk [12] :=
  ⟨rfl, rfl, rfl⟩

/-- Claim C9 (amended): the old serial numbers are converted through the domain type's
`CanonicalSerialize`/`CanonicalDeserialize` routines in both directions; new
commitments, signatures, ledger digest, program commitment, local data root and inner
circuit id all go through the generic digest codec helpers in both directions; the
memorandum goes through the generic decoder in `deserialize` but through its direct
`Into<Digest>` conversion — not the generic digest encoder — in `serialize`. -/
theorem claim_C9_codec_paths (C : Components) (txid : Transaction C → TransactionId) :
    (∀ (t : Transaction C) (s : SerialTransaction),
        Transaction.serialize C txid t = Except.ok s →
        mapME (fun serial => Except.bind (C.serialNumberCanonical.enc serial)
            (fun bytes => Except.ok (Digest.mk bytes))) t.old_serial_numbers
            = Except.ok s.old_serial_numbers
        ∧ serialize_many_digests C.commitmentCodec.enc t.new_commitments
            = Except.ok s.new_commitments
        ∧ serialize_digest C.ledgerDigestCodec.enc t.ledger_digest
            = Except.ok s.ledger_digest
        ∧ serialize_digest C.programCommitmentCodec.enc t.program_commitment
            = Except.ok s.program_commitment
        ∧ serialize_digest C.localDataRootCodec.enc t.local_data_root
            = Except.ok s.local_data_root
        ∧ serialize_many_digests C.signatureCodec.enc t.signatures = Except.ok s.signatures
        ∧ serialize_digest C.innerCircuitIdCodec.enc t.inner_circuit_id
            = Except.ok s.inner_circuit_id
        ∧ s.memorandum = C.memorandumIntoDigest t.memorandum)
    ∧ (∀ (s : SerialTransaction) (d : Transaction C),
        Transaction.deserialize C s = Except.ok d →
        mapME (fun serial => C.serialNumberCanonical.dec serial.bytes) s.old_serial_numbers
            = Except.ok d.old_serial_numbers
        ∧ deserialize_many_bytes C.commitmentCodec.dec Digest.bytes s.new_commitments
            = Except.ok d.new_commitments
        ∧ deserialize_bytes C.ledgerDigestCodec.dec s.ledger_digest.bytes
            = Except.ok d.ledger_digest
        ∧ deserialize_bytes C.programCommitmentCodec.dec s.program_commitment.bytes
            = Except.ok d.program_commitment
        ∧ deserialize_bytes C.localDataRootCodec.dec s.local_data_root.bytes
            = Except.ok d.local_data_root
        ∧ deserialize_many_bytes C.signatureCodec.dec Digest.bytes s.signatures
            = Except.ok d.signatures
        ∧ deserialize_bytes C.memorandumCodec.dec s.memorandum.bytes = Except.ok d.memorandum
        ∧ deserialize_bytes C.innerCircuitIdCodec.dec s.inner_circuit_id.bytes
            = Except.ok d.inner_circuit_id) := by
  constructor
  · intro t s h
    obtain ⟨osn, ld, nc, pc, ldr, sg, nr, pf, ic, h1, h2, h3, h4, h5, h6, h7, h8, h9, hs⟩ :=
      serialize_ok_elim C txid t s h
    subst hs
    exact ⟨h1, h3, h2, h4, h5, h6, h9, rfl⟩
  · intro s d h
    obtain ⟨osn, ld, nc, pc, ldr, sg, recs, pf, mem, ic, h1, h2, h3, h4, h5, h6, h7, h8, h9, h10, hd⟩ :=
      deserialize_ok_elim C s d h
    subst hd
    exact ⟨h1, h3, h2, h4, h5, h6, h9, h10⟩

/-- Witness for claim C9: the codec-path characterization instantiated on the concrete
`trivTx` / `trivSer` pair. -/
theorem claim_C9_witness :
    mapME (fun serial => Except.bind (TrivC.serialNumberCanonical.enc serial)
        (fun bytes => Except.ok (Digest.mk bytes))) trivTx.old_serial_numbers
        = Except.ok trivSer.old_serial_numbers
    ∧ serialize_many_digests TrivC.commitmentCodec.enc trivTx.new_commitments
        = Except.ok trivSer.new_commitments
    ∧ serialize_digest TrivC.ledgerDigestCodec.enc trivTx.ledger_digest
        = Except.ok trivSer.ledger_digest
    ∧ serialize_digest TrivC.programCommitmentCodec.enc trivTx.program_commitment
        = Except.ok trivSer.program_commitment
    ∧ serialize_digest TrivC.localDataRootCodec.enc trivTx.local_data_root
        = Except.ok trivSer.local_data_root
    ∧ serialize_many_digests TrivC.signatureCodec.enc trivTx.signatures
        = Except.ok trivSer.signatures
    ∧ serialize_digest TrivC.innerCircuitIdCodec.enc trivTx.inner_circuit_id
        = Except.ok trivSer.inner_circuit_id
    ∧ trivSer.memorandum = TrivC.memorandumIntoDigest trivTx.memorandum :=
  (claim_C9_codec_paths TrivC trivId).1 trivTx trivSer rfl

/-- Claim C1: for every valid domain transaction `t` under a fixed parameter set (all
field codecs lawful, and the memorandum's `Into<Digest>` conversion inverse to its
decoder and agreeing with its encoder), `serialize` (lower) succeeds, `deserialize`
(lift) of the result returns exactly `t`, and the domain transaction's own canonical
byte encoding of `t = lift(lower(t))` coincides with the wire canonical byte encoding
`write_le` of `lower(t)`. -/
theorem claim_C1_round_trip (C : Components) (txid : Transaction C → TransactionId)
    (hld : C.ledgerDigestCodec.lawful) (hsn : C.serialNumberCanonical.lawful)
    (hnc : C.commitmentCodec.lawful) (hpc : C.programCommitmentCodec.lawful)
    (hldr : C.localDataRootCodec.lawful) (hsg : C.signatureCodec.lawful)
    (hrec : C.recordCodec.lawful) (hpf : C.proofCodec.lawful)
    (hic : C.innerCircuitIdCodec.lawful)
    (hmd : ∀ m, C.memorandumCodec.dec (C.memorandumIntoDigest m).bytes = Except.ok m)
    (hme : ∀ m, C.memorandumCodec.enc m = Except.ok (C.memorandumIntoDigest m).bytes)
    (t : Transaction C) :
    ∃ s, Transaction.serialize C txid t = Except.ok s
      ∧ Transaction.deserialize C s = Except.ok t
      ∧ Transaction.to_bytes_le C t = Except.ok (s.write_le []) := by
  obtain ⟨snBss, hsn1, hsn2, hsn3, hsn4, hsn5⟩ :=
    mapME_lawful_digests _ _ hsn t.old_serial_numbers
  obtain ⟨ncBss, hnc1, hnc2, hnc3, hnc4, hnc5⟩ :=
    mapME_lawful_digests _ _ hnc t.new_commitments
  obtain ⟨sgBss, hsg1, hsg2, hsg3, hsg4, hsg5⟩ :=
    mapME_lawful_digests _ _ hsg t.signatures
  obtain ⟨recBss, hrec1, hrec2, hrec3⟩ := mapME_lawful_bytes _ _ hrec t.encrypted_records
  obtain ⟨ldBs, hldE, hldD⟩ := hld t.ledger_digest
  obtain ⟨pcBs, hpcE, hpcD⟩ := hpc t.program_commitment
  obtain ⟨ldrBs, hldrE, hldrD⟩ := hldr t.local_data_root
  obtain ⟨pfBs, hpfE, hpfD⟩ := hpf t.transaction_proof
  obtain ⟨icBs, hicE, hicD⟩ := hic t.inner_circuit_id
  have h2 : serialize_digest C.ledgerDigestCodec.enc t.ledger_digest
      = Except.ok (Digest.mk ldBs) := by
    simp [serialize_digest, hldE]
  have h4 : serialize_digest C.programCommitmentCodec.enc t.program_commitment
      = Except.ok (Digest.mk pcBs) := by
    simp [serialize_digest, hpcE]
  have h5 : serialize_digest C.localDataRootCodec.enc t.local_data_root
      = Except.ok (Digest.mk ldrBs) := by
    simp [serialize_digest, hldrE]
  have h8 : serialize_bytes C.proofCodec.enc t.transaction_proof = Except.ok pfBs := by
    simp [serialize_bytes, hpfE]
  have h9 : serialize_digest C.innerCircuitIdCodec.enc t.inner_circuit_id
      = Except.ok (Digest.mk icBs) := by
    simp [serialize_digest, hicE]
  refine ⟨_, serialize_ok_intro C txid t hsn2 h2 hnc5 h4 h5 hsg5 hrec1 h8 h9, ?_, ?_⟩
  · exact deserialize_ok_intro C _ hsn3 hldD hnc4 hpcD hldrD hsg4 hrec3 hpfD
      (hmd t.memorandum) hicD
  · unfold Transaction.to_bytes_le
    rw [hsn1, hnc1, hme t.memorandum, hldE, hicE, hpfE, hpcE, hldrE, hsg1, hrec2]
    simp only [bind_ok]
    rw [SerialTransaction.write_le_eq]
    simp [List.append_assoc, Function.comp, List.map_id']

/-- Witness for claim C1: the round trip instantiated at the identity parameter set
`TrivC` on the concrete transaction `trivTx`. -/
theorem claim_C1_witness :
    ∃ s, Transaction.serialize TrivC trivId trivTx = Except.ok s
      ∧ Transaction.deserialize TrivC s = Except.ok trivTx
      ∧ Transaction.to_bytes_le TrivC trivTx = Except.ok (s.write_le []) :=
  claim_C1_round_trip TrivC trivId
    (fun x => ⟨x, rfl, rfl⟩) (fun x => ⟨x, rfl, rfl⟩) (fun x => ⟨x, rfl, rfl⟩)
    (fun x => ⟨x, rfl, rfl⟩) (fun x => ⟨x, rfl, rfl⟩) (fun x => ⟨x, rfl, rfl⟩)
    (fun x => ⟨x, rfl, rfl⟩) (fun x => ⟨x, rfl, rfl⟩) (fun x => ⟨x, rfl, rfl⟩)
    (fun _ => rfl) (fun _ => rfl) trivTx
